import Mathlib

/-!
Verification of the API-key subsystem of the web-fetcher repository
(src/app/APIKey.py), as a shallow embedding in Lean 4.

Modelling conventions:
* Python strings are Lean `String`s; where character-level processing
  matters (permission parsing, charsets) we work on `List Char` via `.data`.
* Python `datetime` values are modelled by `PyDatetime`: an integer
  timestamp in microseconds (`stamp`, full `isoformat` precision) together
  with a flag `utc` saying whether the value is timezone-aware UTC
  (`tzinfo=UTC`) or naive.  Comparison between datetimes compares stamps.
* The ISO-8601 string produced by `datetime.isoformat` is modelled by its
  parsed content `IsoTime` (the timestamp plus whether a `+00:00` offset
  suffix is present); `datetime.fromisoformat` inverts it.
* The HMAC-SHA256 hash keyed by the salt is an opaque function field of
  the configuration (`Config.hash`); nothing proved here depends on more
  than it being a fixed function.
* `secrets.choice` is modelled by an oracle `pick : Nat -> Nat`: the i-th
  draw takes the character at index `pick i % charset.length`.
* File I/O is modelled by data: `ReadOutcome` is what reading the store
  file can yield, and each mutating operation returns the list of store
  snapshots it wrote (`saves`), so that "no rewrite happened" is the
  statement `saves = []`.  Python exceptions become `Except` errors.
-/

namespace APIKeySpec

/-- Model of a Python `datetime`: microsecond timestamp plus UTC-awareness. -/
structure PyDatetime where
  stamp : Int
  utc : Bool
deriving DecidableEq, Repr

/-- Content of an ISO-8601 timestamp string: the encoded instant and
whether an explicit UTC offset suffix is present (aware vs naive). -/
structure IsoTime where
  stamp : Int
  hasOffset : Bool
deriving DecidableEq, Repr

/-! ## APIPermission (permission bitmask) -/

/-- Lowercasing of a character as done by Python `str.lower` on ASCII. -/
def pyToLower (c : Char) : Char :=
  if 65 ≤ c.toNat ∧ c.toNat ≤ 90 then Char.ofNat (c.toNat + 32) else c

/-- Whitespace characters stripped by Python `str.strip`. -/
def pyIsSpace (c : Char) : Bool :=
  c.toNat = 32 || c.toNat = 9 || c.toNat = 10 || c.toNat = 13 ||
    c.toNat = 11 || c.toNat = 12

/-- Python `str.split(",")`: split on every comma, keeping empty pieces. -/
def splitComma : List Char → List (List Char)
  | [] => [[]]
  | c :: rest =>
    if c = ',' then [] :: splitComma rest
    else
      match splitComma rest with
      | [] => [[c]]
      | t :: ts => (c :: t) :: ts

/-- Python `str.strip`: drop whitespace from both ends. -/
def stripChars (l : List Char) : List Char :=
  ((l.dropWhile pyIsSpace).reverse.dropWhile pyIsSpace).reverse

/-- Lowercase every character (Python `str.lower`). -/
def lowerChars (l : List Char) : List Char :=
  l.map pyToLower

/-- The `permission_map` of `APIPermission.from_str`, keyed by token,
returning the integer value of the named permission. -/
def permLookup (tok : List Char) : Option Nat :=
  if tok = "read".data then some 1
  else if tok = "write".data then some 2
  else if tok = "delete".data then some 4
  else if tok = "read_write".data then some 3
  else if tok = "full_access".data then some 7
  else if tok = "none".data then some 0
  else none

/-- Model of `APIPermission.from_str`: empty input yields NONE; otherwise lowercase
the whole string, split on commas, strip each part, OR together the values
of recognized parts, silently skipping unrecognized ones. -/
def from_str (s : String) : Nat :=
  if s = "" then 0
  else
    (splitComma (lowerChars s.data)).foldl
      (fun acc part =>
        match permLookup (stripChars part) with
        | some v => acc ||| v
        | none => acc) 0

/-- Restatement of the spec sentence for `parse`: split on commas, trim a
token and match it case-insensitively, ignore unrecognized tokens, and OR
the values of the recognized ones. -/
def claimedParse (s : String) : Nat :=
  ((splitComma s.data).filterMap
    (fun tok => permLookup (lowerChars (stripChars tok)))).foldl
      (fun acc v => acc ||| v) 0

/-! ## Data model of the store -/

/-- In-memory record stored for one API key (the six fields written by
`generate_apikey`). -/
structure Meta where
  raw_apikey : String
  expire_at : Option PyDatetime
  permissions : Nat
  created_at : Option PyDatetime
  user_id : Option String
  is_active : Bool
deriving DecidableEq, Repr

/-- The in-memory store: an insertion-ordered map from hashed secret to
record, as a Python dict is. -/
abbrev Store := List (String × Meta)

/-- Configuration of `APIKeyManager.__init__` (the salt is folded into the
opaque `hash` function; the persist path lives outside the model). -/
structure Config where
  hash : String → String
  default_length : Int
  default_pref : Option String
  use_safe_chars : Bool
  include_symbols : Bool

/-- Python dict lookup `store[k]` / membership. -/
def storeLookup (k : String) : Store → Option Meta
  | [] => none
  | (k', m) :: rest => if k' = k then some m else storeLookup k rest

/-- Python dict assignment `store[k] = m`: replace in place if the key
exists, else append. -/
def storeInsert (k : String) (m : Meta) : Store → Store
  | [] => [(k, m)]
  | (k', m') :: rest =>
    if k' = k then (k, m) :: rest else (k', m') :: storeInsert k m rest

/-- Python `del store[k]`. -/
def storeRemove (k : String) (st : Store) : Store :=
  st.filter (fun p => p.1 ≠ k)

/-! ## Serialization and the persisted file -/

/-- Primitive JSON value appearing as a record field in the store file.
A string whose content is a valid ISO-8601 timestamp is distinguished as
`jtime` (carrying its parsed content); `jstr` is any other string. -/
inductive JPrim where
  | jnull
  | jbool (b : Bool)
  | jint (n : Int)
  | jstr (s : String)
  | jtime (t : IsoTime)
deriving DecidableEq, Repr

/-- One value of the top-level JSON object: either an object of fields or
some non-object JSON value. -/
inductive JRec where
  | fields (fs : List (String × JPrim))
  | nonObjRec
deriving DecidableEq, Repr

/-- A parsed store file: a top-level JSON object, or some non-object
JSON value. -/
inductive JTop where
  | obj (entries : List (String × JRec))
  | nonObj
deriving DecidableEq, Repr

/-- What reading the store file can yield before parsing. -/
inductive ReadOutcome where
  | absentFile
  | permissionError
  | malformed
  | parsed (doc : JTop)
deriving DecidableEq, Repr

/-- Errors `_load_from_file` can propagate. -/
inductive LoadError where
  | permError
  | runtimeError
deriving DecidableEq, Repr

/-- Behavior of `_serialize_value` on a datetime: `isoformat`, which renders the
offset suffix exactly when the value is timezone-aware. -/
def serialize_dt (d : PyDatetime) : JPrim :=
  .jtime ⟨d.stamp, d.utc⟩

/-- Serialization of one record by `_save_to_file`: each field through
`_serialize_value` (datetime to ISO string, permission flag to its integer
value, primitives unchanged). -/
def serializeMeta (m : Meta) : List (String × JPrim) :=
  [("raw_apikey", .jstr m.raw_apikey),
   ("expire_at", match m.expire_at with
     | some d => serialize_dt d
     | none => .jnull),
   ("permissions", .jint (m.permissions : Int)),
   ("created_at", match m.created_at with
     | some d => serialize_dt d
     | none => .jnull),
   ("user_id", match m.user_id with
     | some s => .jstr s
     | none => .jnull),
   ("is_active", .jbool m.is_active)]

/-- The JSON document `_save_to_file` writes: the whole store serialized
record by record. -/
def saveDoc (st : Store) : JTop :=
  .obj (st.map (fun p => (p.1, .fields (serializeMeta p.2))))

/-- Behavior of `_deserialize_value` on the `expire_at` / `created_at` keys:
`None` passes through; an ISO timestamp string is parsed with
`fromisoformat` and, if naive, assumed UTC; anything else makes
`fromisoformat` raise, which surfaces as a `RuntimeError`. -/
def deserialize_time : JPrim → Except Unit (Option PyDatetime)
  | .jnull => .ok none
  | .jtime t => .ok (some ⟨t.stamp, true⟩)
  | _ => .error ()

/-- Behavior of `_deserialize_value` on the `permissions` key: `int` (or numeric
string) values that denote a valid `APIPermission` bitmask (0..7) are
accepted; out-of-range or unparsable values make the `APIPermission`
constructor raise, which surfaces as a `RuntimeError`. -/
def deserialize_perm : JPrim → Except Unit Nat
  | .jint n => if 0 ≤ n ∧ n < 8 then .ok n.toNat else .error ()
  | .jstr s =>
    match s.toInt? with
    | some n => if 0 ≤ n ∧ n < 8 then .ok n.toNat else .error ()
    | none => .error ()
  | .jbool b => .ok (if b then 1 else 0)
  | _ => .error ()

/-- Typed reading of one record in the exact canonical layout that
`_save_to_file` emits (the six documented fields in write order), each
field through `_deserialize_value`.  The source performs no schema or
order check when loading — the faithful model of its loop is
`deserializeFields` below; this schema-shaped view exists to state the
save/load round trip over typed stores (C4), whose documents always have
this layout. -/
def deserializeMeta (fs : List (String × JPrim)) : Except Unit Meta :=
  match fs with
  | [(k1, rv), (k2, ev), (k3, pv), (k4, cv), (k5, uv), (k6, av)] =>
    if k1 = "raw_apikey" ∧ k2 = "expire_at" ∧ k3 = "permissions" ∧
        k4 = "created_at" ∧ k5 = "user_id" ∧ k6 = "is_active" then do
      let raw ← match rv with
        | .jstr s => Except.ok s
        | _ => Except.error ()
      let ea ← deserialize_time ev
      let p ← deserialize_perm pv
      let ca ← deserialize_time cv
      let uid ← match uv with
        | .jstr s => Except.ok (some s)
        | .jnull => Except.ok none
        | _ => Except.error ()
      let act ← match av with
        | .jbool b => Except.ok b
        | _ => Except.error ()
      .ok ⟨raw, ea, p, ca, uid, act⟩
    else .error ()
  | _ => .error ()

/-- Record-by-record reading of a document whose records all have the
canonical saved layout (cf. `deserializeMeta`); the faithful general loop
is `load_records` below. -/
def loadRecords : List (String × JRec) → Except Unit Store
  | [] => .ok []
  | (k, .fields fs) :: rest => do
    let m ← deserializeMeta fs
    let tl ← loadRecords rest
    .ok ((k, m) :: tl)
  | (_, .nonObjRec) :: _ => .error ()

/-- Schema-typed view of the load path, restricted to documents in the
canonical layout `_save_to_file` writes; used to state the save/load
round trip (C4).  The faithful general model of `_load_from_file` is
`load_from_file` below, and `save_load_faithful` proves the two views
agree on every saved document. -/
def loadStore : ReadOutcome → Except LoadError Store
  | .absentFile => .ok []
  | .malformed => .ok []
  | .permissionError => .error .permError
  | .parsed (.obj entries) =>
    match loadRecords entries with
    | .ok st => .ok st
    | .error _ => .error .runtimeError
  | .parsed .nonObj => .error .runtimeError

/-- In-memory Python value of one record field after `_deserialize_value`:
strings, integers, booleans and `None` pass through unchanged (`vtstr` is
a passed-through string whose content happens to be an ISO timestamp),
timestamp fields become `datetime` objects (`vdt`), and the permissions
field becomes an `APIPermission` (`vperm`). -/
inductive LVal where
  | vnull
  | vbool (b : Bool)
  | vint (n : Int)
  | vstr (s : String)
  | vtstr (t : IsoTime)
  | vdt (d : PyDatetime)
  | vperm (p : Nat)
deriving DecidableEq, Repr

/-- The in-memory store as `_load_from_file` actually builds it: a dict of
dicts with whatever fields each record happens to have. -/
abbrev RawStore := List (String × List (String × LVal))

/-- Pass-through of `_deserialize_value`'s else branch: the value is
returned unchanged. -/
def passThrough : JPrim → LVal
  | .jnull => .vnull
  | .jbool b => .vbool b
  | .jint n => .vint n
  | .jstr s => .vstr s
  | .jtime t => .vtstr t

/-- Faithful model of `_deserialize_value`: for the `expire_at` /
`created_at` keys with a non-null value, `datetime.fromisoformat` (naive
timestamps assumed UTC; anything that is not an ISO timestamp string
raises); for the `permissions` key with a non-null value, the
`APIPermission` conversion (cf. `deserialize_perm`); every other key, and
every null value, passes through unchanged. -/
def deserialize_value (k : String) (v : JPrim) : Except Unit LVal :=
  if (k = "expire_at" ∨ k = "created_at") ∧ v ≠ .jnull then
    match v with
    | .jtime t => .ok (.vdt ⟨t.stamp, true⟩)
    | _ => .error ()
  else if k = "permissions" ∧ v ≠ .jnull then
    match deserialize_perm v with
    | .ok p => .ok (.vperm p)
    | .error e => .error e
  else
    .ok (passThrough v)

/-- Faithful model of the per-record loop of `_load_from_file`: every
field present in the record is deserialized through `_deserialize_value`;
no schema or order check is performed (an empty record loads as an empty
record), and the loop fails exactly when some present field fails. -/
def deserializeFields : List (String × JPrim) → Except Unit (List (String × LVal))
  | [] => .ok []
  | (k, v) :: rest => do
    let dv ← deserialize_value k v
    let tl ← deserializeFields rest
    .ok ((k, dv) :: tl)

/-- Faithful model of the record iteration of `_load_from_file`: a record
value that is not an object raises (`meta.items()` fails); otherwise its
fields are deserialized as they are. -/
def load_records : List (String × JRec) → Except Unit RawStore
  | [] => .ok []
  | (k, .fields fs) :: rest => do
    let dv ← deserializeFields fs
    let tl ← load_records rest
    .ok ((k, dv) :: tl)
  | (_, .nonObjRec) :: _ => .error ()

/-- Faithful model of `_load_from_file`: an absent file gives an empty
store; a JSON decode error is discarded and gives an empty store; a
permission failure reading the file propagates; a non-object top level or
a record field that fails `_deserialize_value` is re-raised as a
`RuntimeError`. -/
def load_from_file : ReadOutcome → Except LoadError RawStore
  | .absentFile => .ok []
  | .malformed => .ok []
  | .permissionError => .error .permError
  | .parsed (.obj entries) =>
    match load_records entries with
    | .ok st => .ok st
    | .error _ => .error .runtimeError
  | .parsed .nonObj => .error .runtimeError

/-- In-memory field dict corresponding to a typed record: what loading the
serialization of that record yields (for UTC-aware timestamps). -/
def rawFieldsOfMeta (m : Meta) : List (String × LVal) :=
  [("raw_apikey", .vstr m.raw_apikey),
   ("expire_at", match m.expire_at with
     | some d => .vdt d
     | none => .vnull),
   ("permissions", .vperm m.permissions),
   ("created_at", match m.created_at with
     | some d => .vdt d
     | none => .vnull),
   ("user_id", match m.user_id with
     | some s => .vstr s
     | none => .vnull),
   ("is_active", .vbool m.is_active)]

/-- Raw view of a typed store: each record as the field dict loading its
serialization yields. -/
def rawOfStore (st : Store) : RawStore :=
  st.map (fun p => (p.1, rawFieldsOfMeta p.2))

/-! ## Charset and secret generation -/

def lettersChars : List Char :=
  "abcdefghijklmnopqrstuvwxyzABCDEFGHIJKLMNOPQRSTUVWXYZ".data

def digitsChars : List Char :=
  "0123456789".data

def symbolChars : List Char :=
  "!@#$%^&*()_+-=[]\x7b\x7d|;:,.<>?~".data

/-- Python `str.replace(c, "")`: remove every occurrence of a character. -/
def removeChar (c : Char) (l : List Char) : List Char :=
  l.filter (fun x => x != c)

/-- The charset built by `_get_charset` before its emptiness check. -/
def charsetList (cfg : Config) : List Char :=
  let letters :=
    if cfg.use_safe_chars then
      removeChar 'o' (removeChar 'O' (removeChar 'L' (removeChar 'l' lettersChars)))
    else lettersChars
  let digits :=
    if cfg.use_safe_chars then removeChar '1' (removeChar '0' digitsChars)
    else digitsChars
  let base := letters ++ digits
  if cfg.include_symbols then base ++ symbolChars else base

/-- Model of `_get_charset`: build the charset and raise if it is empty. -/
def get_charset (cfg : Config) : Except Unit (List Char) :=
  let cs := charsetList cfg
  if cs = [] then .error () else .ok cs

/-- The random part: `length` successive `secrets.choice(charset)` draws,
with the random source modelled by the oracle `pick`. -/
def randPart (cs : List Char) (pick : Nat → Nat) (n : Nat) : List Char :=
  (List.range n).map (fun i => cs.getD (pick i % cs.length) 'a')

/-- The `permissions` argument of `generate_apikey`: an `APIPermission`
value or a string to be parsed. -/
inductive PermArg where
  | perm (p : Nat)
  | ofStr (s : String)

/-- Integer value that `generate_apikey` stores for a permissions
argument (strings go through `APIPermission.from_str`). -/
def permVal : PermArg → Nat
  | .perm p => p
  | .ofStr s => from_str s

/-- Normalization of the `expire_at` argument: a timedelta (microseconds)
is added to now; an absolute naive datetime is assumed UTC; an aware one
is kept; `None` stays `None`. -/
def expiryOf (now : PyDatetime) : Option (PyDatetime ⊕ Int) → Option PyDatetime
  | none => none
  | some (.inl dt) => some (if dt.utc then dt else ⟨dt.stamp, true⟩)
  | some (.inr td) => some ⟨now.stamp + td, now.utc⟩

/-- Effective value of a falsy-defaulted string option
(`prefix or self.default_prefix`). -/
def effPref (cfg : Config) : Option String → Option String
  | none => cfg.default_pref
  | some s => if s = "" then cfg.default_pref else some s

/-- Text actually prepended for an effective prefix value: empty unless
the value is a non-empty string (`f"..." if prefix else random_part`). -/
def prefOut : Option String → String
  | none => ""
  | some p => if p = "" then "" else p

/-- Effective value of the falsy-defaulted length argument
(`length or self.default_length`). -/
def effLen (cfg : Config) : Option Int → Int
  | none => cfg.default_length
  | some n => if n = 0 then cfg.default_length else n

/-- Errors `generate_apikey` can raise (`ValueError` for a too-short
length, `ValueError` for an empty charset). -/
inductive GenError where
  | lengthError
  | charsetError
deriving DecidableEq, Repr

/-- Core of `generate_apikey`: argument defaulting and validation, expiry
normalization, charset construction and secret drawing, and the record to
be stored.  The store itself is untouched here. -/
def genCore (cfg : Config) (pick : Nat → Nat) (now : PyDatetime)
    (ea : Option (PyDatetime ⊕ Int)) (pa : PermArg) (uid : Option String)
    (len : Option Int) (pre : Option String) :
    Except GenError (String × Meta) :=
  let length : Int := effLen cfg len
  let pre' := effPref cfg pre
  if length < 8 then .error .lengthError
  else
    let perms := permVal pa
    let expire := expiryOf now ea
    match get_charset cfg with
    | .error _ => .error .charsetError
    | .ok cs =>
      let part := randPart cs pick length.toNat
      let raw : String :=
        match pre' with
        | some p => if p = "" then String.mk part else p ++ String.mk part
        | none => String.mk part
      .ok (raw, ⟨raw, expire, perms, some now, uid, true⟩)

/-- Result of a successful `generate_apikey`: the plaintext secret, the
new in-memory store, and the store snapshots written to the file. -/
structure GenResult where
  secret : String
  store : Store
  saves : List Store
deriving DecidableEq, Repr

/-- Model of `generate_apikey`: build the secret and record, insert it under the
hash of the secret, and persist the whole store. -/
def generate_apikey (cfg : Config) (pick : Nat → Nat) (now : PyDatetime)
    (ea : Option (PyDatetime ⊕ Int)) (pa : PermArg) (uid : Option String)
    (len : Option Int) (pre : Option String) (store : Store) :
    Except GenError GenResult :=
  match genCore cfg pick now ea pa uid len pre with
  | .error e => .error e
  | .ok (raw, meta) =>
    let store' := storeInsert (cfg.hash raw) meta store
    .ok ⟨raw, store', [store']⟩

/-! ## Validation and lifecycle -/

/-- Result dictionary of `validate_apikey`; the last four fields are
`some` exactly when the corresponding key is present in the dict (the
full-success case). -/
structure ValidateResult where
  is_valid : Bool
  is_expired : Bool
  has_permission : Bool
  message : String
  permissions : Option Nat := none
  expire_at : Option (Option PyDatetime) := none
  created_at : Option (Option PyDatetime) := none
  user_id : Option (Option String) := none
deriving DecidableEq, Repr

/-- Rendering of a datetime in an f-string (`str(datetime)`), modelled as
the timestamp plus the offset suffix when aware. -/
def dtStr (d : PyDatetime) : String :=
  toString d.stamp ++ (if d.utc then "+00:00" else "")

/-- Truthiness of `meta["expire_at"] and now > meta["expire_at"]`:
a datetime object is always truthy, `None` is falsy. -/
def isExpiredAt (now : PyDatetime) : Option PyDatetime → Bool
  | some t => t.stamp < now.stamp
  | none => false

/-- The full-success result of `validate_apikey` for a record. -/
def okResult (m : Meta) : ValidateResult :=
  { is_valid := true, is_expired := false, has_permission := true,
    message := "校验通过", permissions := some m.permissions,
    expire_at := some m.expire_at, created_at := some m.created_at,
    user_id := some m.user_id }

/-- Model of `validate_apikey`: look the hash up and apply the four checks in
order (existence, active flag, expiry, required permissions).  Every
outcome is a returned dictionary; nothing is raised. -/
def validate_apikey (cfg : Config) (now : PyDatetime) (api_key : String)
    (required : Option Nat) (store : Store) : ValidateResult :=
  match storeLookup (cfg.hash api_key) store with
  | none =>
    { is_valid := false, is_expired := false, has_permission := false,
      message := "APIKey不存在" }
  | some meta =>
    if meta.is_active = false then
      { is_valid := false, is_expired := false, has_permission := false,
        message := "APIKey已禁用" }
    else if isExpiredAt now meta.expire_at then
      { is_valid := false, is_expired := true, has_permission := false,
        message := "APIKey已过期（" ++
          (match meta.expire_at with
           | some t => dtStr t
           | none => "") ++ "）" }
    else
      match required with
      | none => okResult meta
      | some r =>
        if r ≠ 0 then
          if meta.permissions &&& r = r then okResult meta
          else
            { is_valid := true, is_expired := false, has_permission := false,
              message := "权限不足（当前：" ++ toString meta.permissions ++
                "，需要：" ++ toString r ++ "）" }
        else okResult meta

/-- Model of `disable_apikey`: set `is_active` to false if the hash is present and
persist; report whether a record was found. -/
def disable_apikey (cfg : Config) (raw_apikey : String) (store : Store) :
    Bool × Store × List Store :=
  let k := cfg.hash raw_apikey
  match storeLookup k store with
  | none => (false, store, [])
  | some m =>
    let st' := storeInsert k { m with is_active := false } store
    (true, st', [st'])

/-- Model of `delete_apikey`: remove the record if the hash is present and persist;
report whether a record was found. -/
def delete_apikey (cfg : Config) (raw_apikey : String) (store : Store) :
    Bool × Store × List Store :=
  let k := cfg.hash raw_apikey
  match storeLookup k store with
  | none => (false, store, [])
  | some _ =>
    let st' := storeRemove k store
    (true, st', [st'])

/-! ## Operation sequences -/

/-- One manager operation, with every external input (time, randomness,
arguments) resolved. -/
inductive MOp where
  | mgen (pick : Nat → Nat) (now : PyDatetime) (ea : Option (PyDatetime ⊕ Int))
      (pa : PermArg) (uid : Option String) (len : Option Int) (pre : Option String)
  | mdisable (secret : String)
  | mdelete (secret : String)
  | mvalidate (now : PyDatetime) (secret : String) (req : Option Nat)

/-- Effect of one operation on the in-memory store (a failed `generate`
leaves it untouched; `validate` is read-only). -/
def stepOp (cfg : Config) (op : MOp) (store : Store) : Store :=
  match op with
  | .mgen pick now ea pa uid len pre =>
    match generate_apikey cfg pick now ea pa uid len pre store with
    | .ok r => r.store
    | .error _ => store
  | .mdisable s => (disable_apikey cfg s store).2.1
  | .mdelete s => (delete_apikey cfg s store).2.1
  | .mvalidate _ _ _ => store

/-- Run a sequence of operations from a starting store. -/
def runOps (cfg : Config) (ops : List MOp) (store : Store) : Store :=
  ops.foldl (fun st op => stepOp cfg op st) store

/-- The store key a `generate` operation would write on success (`none`
for failing generates and for every other operation). -/
def genKeyOf (cfg : Config) (op : MOp) : Option String :=
  match op with
  | .mgen pick now ea pa uid len pre =>
    match genCore cfg pick now ea pa uid len pre with
    | .ok (raw, _) => some (cfg.hash raw)
    | .error _ => none
  | _ => none

/-- Secret produced by a successful `genCore` drawing `n` characters:
the effective prefix text followed by the random part. -/
def genRaw (cfg : Config) (pick : Nat → Nat) (n : Nat) (pre : Option String) :
    String :=
  prefOut (effPref cfg pre) ++ String.mk (randPart (charsetList cfg) pick n)

/-- Record produced by a successful `genCore` drawing `n` characters. -/
def genMeta (cfg : Config) (pick : Nat → Nat) (now : PyDatetime)
    (ea : Option (PyDatetime ⊕ Int)) (pa : PermArg) (uid : Option String)
    (n : Nat) (pre : Option String) : Meta :=
  ⟨genRaw cfg pick n pre, expiryOf now ea, permVal pa, some now, uid, true⟩

/-- Restatement of the spec's charset description: letters and digits,
with the visually ambiguous characters removed when safe-chars is
configured, and the fixed symbol set appended when symbols are
configured. -/
def claimedCharset (cfg : Config) : List Char :=
  ((lettersChars ++ digitsChars).filter
    (fun c => !(cfg.use_safe_chars && ['l', 'L', 'O', 'o', '0', '1'].contains c)))
  ++ (if cfg.include_symbols then symbolChars else [])

/-- Well-formedness of an in-memory store whose records have the
documented field types: a valid permission bitmask and timezone-aware
timestamps. -/
def storeWF (st : Store) : Bool :=
  st.all (fun p =>
    decide (p.2.permissions < 8) && p.2.expire_at.all (fun d => d.utc) &&
      p.2.created_at.all (fun d => d.utc))

/-! ## Concrete sample values used by witnesses and counterexamples -/

/-- Sample configuration: identity hash, default length 8, default
prefix "sk-", plain charset without safe-chars filtering or symbols. -/
def cfg0 : Config :=
  ⟨fun s => s, 8, some "sk-", false, false⟩

/-- Random oracle that always picks index 0 of the charset. -/
def pick0 : Nat → Nat := fun _ => 0

def now0 : PyDatetime := ⟨1000000, true⟩

def now1 : PyDatetime := ⟨2000000, true⟩

/-- The record `generate_apikey cfg0 pick0 now0` produces with no expiry,
NONE permissions and no user id. -/
def mGen0 : Meta :=
  ⟨"sk-aaaaaaaa", none, 0, some now0, none, true⟩

def stGen0 : Store := [("sk-aaaaaaaa", mGen0)]

/-- A sample active record with READ_WRITE permissions. -/
def m0 : Meta :=
  ⟨"sk-aaaaaaaa", some ⟨1500000, true⟩, 3, some now0, some "u1", true⟩

def store0 : Store := [("sk-aaaaaaaa", m0)]

/-- The generate operation issuing the secret "sk-aaaaaaaa" under cfg0. -/
def gop0 : MOp := .mgen pick0 now0 none (.perm 0) none none none

/-- Record of a key generated under cfg0 with READ_WRITE permissions. -/
def mC6 : Meta :=
  ⟨"sk-aaaaaaaa", none, 3, some now0, none, true⟩

/-- Result of generating that key into an empty store. -/
def rC6 : GenResult :=
  ⟨"sk-aaaaaaaa", [("sk-aaaaaaaa", mC6)], [[("sk-aaaaaaaa", mC6)]]⟩

/-- The sample record m0 with its active flag already cleared. -/
def mInact0 : Meta := { m0 with is_active := false }

def storeInact : Store := [("sk-aaaaaaaa", mInact0)]

/-- A store-file document whose only record has a non-timestamp string in
its `expire_at` field: valid JSON that fails to deserialize. -/
def badTimeDoc : JTop :=
  .obj [("h", .fields
    [("raw_apikey", .jstr "sk-x"),
     ("expire_at", .jstr "not-a-timestamp"),
     ("permissions", .jint 3),
     ("created_at", .jtime ⟨0, true⟩),
     ("user_id", .jnull),
     ("is_active", .jbool true)])]

/-- A well-formed one-record store used to witness the round trip. -/
def storeRT : Store :=
  [("h1", ⟨"sk-x", some ⟨5, true⟩, 7, some now0, some "u", false⟩)]

/-! # Theorems -/

/-! ## Helper lemmas for permission parsing (C8) -/

theorem toNat_pyToLower_of_upper (c : Char) (h : 65 ≤ c.toNat ∧ c.toNat ≤ 90) :
    (Char.ofNat (c.toNat + 32)).toNat = c.toNat + 32 := by
  unfold Char.ofNat
  split
  · rfl
  · rename_i hnv
    exfalso
    apply hnv
    constructor
    omega

theorem pyToLower_comma (c : Char) : (pyToLower c = ',') ↔ (c = ',') := by
  unfold pyToLower
  split
  · rename_i h
    constructor
    · intro hc
      have h44 : (Char.ofNat (c.toNat + 32)).toNat = 44 := by rw [hc]; decide
      have hv := toNat_pyToLower_of_upper c h
      omega
    · intro hc
      subst hc
      simp at h
  · exact Iff.rfl

theorem space_chain_false (n : Nat) (h : 33 ≤ n) :
    (decide (n = 32) || decide (n = 9) || decide (n = 10) || decide (n = 13) ||
      decide (n = 11) || decide (n = 12)) = false := by
  simp only [Bool.or_eq_false_iff, decide_eq_false_iff_not]
  omega

theorem pyIsSpace_pyToLower (c : Char) : pyIsSpace (pyToLower c) = pyIsSpace c := by
  unfold pyToLower
  split
  · rename_i h
    have hv := toNat_pyToLower_of_upper c h
    unfold pyIsSpace
    rw [hv]
    rw [space_chain_false (c.toNat + 32) (by omega)]
    rw [space_chain_false c.toNat (by omega)]
  · rfl

theorem splitComma_ne_nil (l : List Char) : splitComma l ≠ [] := by
  induction l with
  | nil => simp [splitComma]
  | cons c rest ih =>
    unfold splitComma
    split
    · simp
    · split
      · simp
      · simp

theorem splitComma_lower (l : List Char) :
    splitComma (lowerChars l) = (splitComma l).map lowerChars := by
  induction l with
  | nil => rfl
  | cons c rest ih =>
    show splitComma (pyToLower c :: lowerChars rest) = _
    by_cases hc : c = ','
    · subst hc
      have hl : pyToLower ',' = ',' := by decide
      simp only [splitComma, hl, if_pos rfl, ih]
      rfl
    · have hc' : pyToLower c ≠ ',' := fun h => hc ((pyToLower_comma c).mp h)
      rcases he : splitComma rest with _ | ⟨t, ts⟩
      · exact absurd he (splitComma_ne_nil rest)
      · simp only [splitComma, if_neg hc, if_neg hc', ih, he, List.map_cons]
        rfl

theorem dropWhile_space_map_lower (m : List Char) :
    (m.map pyToLower).dropWhile pyIsSpace
      = (m.dropWhile pyIsSpace).map pyToLower := by
  rw [List.dropWhile_map]
  have h : pyIsSpace ∘ pyToLower = pyIsSpace := funext pyIsSpace_pyToLower
  rw [h]

theorem strip_lower (l : List Char) :
    stripChars (lowerChars l) = lowerChars (stripChars l) := by
  unfold stripChars lowerChars
  rw [dropWhile_space_map_lower, ← List.map_reverse, dropWhile_space_map_lower,
    ← List.map_reverse]

theorem foldl_skip (f : List Char → Option Nat) (ts : List (List Char)) (acc : Nat) :
    ts.foldl (fun a t => match f t with | some v => a ||| v | none => a) acc
      = (ts.filterMap f).foldl (fun a v => a ||| v) acc := by
  induction ts generalizing acc with
  | nil => rfl
  | cons t ts ih =>
    cases hf : f t <;> simp [List.filterMap_cons, hf, ih]

/-- C8: `APIPermission.from_str` splits its input on commas, matches each
token case-insensitively after trimming against the six permission names,
silently ignores unrecognized tokens, and returns the bitwise OR of the
recognized tokens' values (hence NONE when nothing is recognized). -/
theorem from_str_eq_claimedParse (s : String) : from_str s = claimedParse s := by
  by_cases hs : s = ""
  · subst hs
    decide
  · unfold from_str claimedParse
    rw [if_neg hs]
    rw [splitComma_lower]
    rw [List.foldl_map]
    have hsl : (fun (acc : Nat) (tok : List Char) =>
        match permLookup (stripChars (lowerChars tok)) with
        | some v => acc ||| v
        | none => acc)
      = (fun acc tok =>
        match permLookup (lowerChars (stripChars tok)) with
        | some v => acc ||| v
        | none => acc) := by
      funext acc tok
      rw [strip_lower]
    rw [hsl]
    rw [foldl_skip (fun tok => permLookup (lowerChars (stripChars tok)))]

/-! ## C1: decision order of validate -/

/-- C1: for every secret and optional required permission set,
`validate_apikey` returns its result by the first matching rule of the
documented order: (1) hash not in the store → invalid / not-expired /
no-permission with a not-found message; (2) inactive record → invalid with
a disabled message; (3) expiry set and passed → invalid, expired, with an
expired message; (4) required given and not covered by the record's
permissions → valid but without permission, with an insufficient-permission
message; (5) otherwise the full success result carrying the record's
permissions, expiry, creation time and user id.  Every outcome is an
ordinary return value: `validate_apikey` is a total function into
`ValidateResult`, with no exception path. -/
theorem validate_decision_order (cfg : Config) (now : PyDatetime)
    (api_key : String) (required : Option Nat) (store : Store) :
    (storeLookup (cfg.hash api_key) store = none →
      validate_apikey cfg now api_key required store =
        { is_valid := false, is_expired := false, has_permission := false,
          message := "APIKey不存在" }) ∧
    (∀ m, storeLookup (cfg.hash api_key) store = some m →
      m.is_active = false →
      validate_apikey cfg now api_key required store =
        { is_valid := false, is_expired := false, has_permission := false,
          message := "APIKey已禁用" }) ∧
    (∀ m t, storeLookup (cfg.hash api_key) store = some m →
      m.is_active = true → m.expire_at = some t → t.stamp < now.stamp →
      validate_apikey cfg now api_key required store =
        { is_valid := false, is_expired := true, has_permission := false,
          message := "APIKey已过期（" ++ dtStr t ++ "）" }) ∧
    (∀ m r, storeLookup (cfg.hash api_key) store = some m →
      m.is_active = true → isExpiredAt now m.expire_at = false →
      required = some r → m.permissions &&& r ≠ r →
      validate_apikey cfg now api_key required store =
        { is_valid := true, is_expired := false, has_permission := false,
          message := "权限不足（当前：" ++ toString m.permissions ++
            "，需要：" ++ toString r ++ "）" }) ∧
    (∀ m, storeLookup (cfg.hash api_key) store = some m →
      m.is_active = true → isExpiredAt now m.expire_at = false →
      (required = none ∨ ∃ r, required = some r ∧ m.permissions &&& r = r) →
      validate_apikey cfg now api_key required store = okResult m) := by
  refine ⟨?_, ?_, ?_, ?_, ?_⟩
  · intro h
    unfold validate_apikey
    rw [h]
  · intro m hm ha
    unfold validate_apikey
    rw [hm]
    simp [ha]
  · intro m t hm ha he hlt
    unfold validate_apikey
    rw [hm]
    simp [ha, he, isExpiredAt, hlt]
  · intro m r hm ha hne hreq hperm
    have hr0 : r ≠ 0 := by
      intro h0
      subst h0
      simp at hperm
    subst hreq
    unfold validate_apikey
    rw [hm]
    simp [ha, hne, hr0, hperm]
  · intro m hm ha hne hreq
    unfold validate_apikey
    rw [hm]
    rcases hreq with h | ⟨r, hr, hpr⟩
    · subst h
      simp [ha, hne]
    · subst hr
      by_cases h0 : r = 0
      · subst h0
        simp [ha, hne]
      · simp [ha, hne, h0, hpr]

/-- Witness for C1: rules 1 and 5 evaluated on concrete inputs. -/
theorem validate_decision_order_witness :
    validate_apikey cfg0 now0 "absent" none [] =
      { is_valid := false, is_expired := false, has_permission := false,
        message := "APIKey不存在" } ∧
    validate_apikey cfg0 now0 "sk-aaaaaaaa" (some 1) store0 = okResult m0 := by
  constructor
  · exact (validate_decision_order cfg0 now0 "absent" none []).1 (by decide)
  · exact (validate_decision_order cfg0 now0 "sk-aaaaaaaa" (some 1) store0).2.2.2.2
      m0 (by decide) (by decide) (by decide)
      (Or.inr ⟨1, rfl, by decide⟩)

/-! ## Helper lemmas: store operations -/

theorem storeLookup_insert_self (k : String) (m : Meta) (st : Store) :
    storeLookup k (storeInsert k m st) = some m := by
  induction st with
  | nil => simp [storeInsert, storeLookup]
  | cons p rest ih =>
    rcases p with ⟨k', m'⟩
    by_cases hk : k' = k
    · subst hk
      simp [storeInsert, storeLookup]
    · simp [storeInsert, storeLookup, hk, ih]

theorem storeLookup_insert_ne (k k' : String) (m : Meta) (st : Store)
    (h : k' ≠ k) : storeLookup k (storeInsert k' m st) = storeLookup k st := by
  induction st with
  | nil => simp [storeInsert, storeLookup, h]
  | cons p rest ih =>
    rcases p with ⟨k1, m1⟩
    by_cases hk : k1 = k'
    · subst hk
      simp [storeInsert, storeLookup, h]
    · simp [storeInsert, storeLookup, hk, ih]

theorem storeLookup_remove_self (k : String) (st : Store) :
    storeLookup k (storeRemove k st) = none := by
  induction st with
  | nil => rfl
  | cons p rest ih =>
    rcases p with ⟨k1, m1⟩
    simp only [storeRemove, List.filter_cons, ne_eq, decide_not] at ih ⊢
    by_cases hk : k1 = k
    · subst hk
      simpa using ih
    · simp [hk, storeLookup, ih]

theorem storeLookup_remove_ne (k k' : String) (st : Store) (h : k ≠ k') :
    storeLookup k (storeRemove k' st) = storeLookup k st := by
  induction st with
  | nil => rfl
  | cons p rest ih =>
    rcases p with ⟨k1, m1⟩
    simp only [storeRemove, List.filter_cons, ne_eq, decide_not] at ih ⊢
    by_cases hk : k1 = k'
    · subst hk
      have hk1 : k1 ≠ k := fun he => h he.symm
      simp [storeLookup, hk1, ih]
    · simp [hk, storeLookup, ih]

/-! ## Helper lemmas: charset and generation -/

theorem charsetList_ne_nil (cfg : Config) : charsetList cfg ≠ [] := by
  rcases cfg with ⟨h, dl, dp, sc, sy⟩
  cases sc <;> cases sy <;> simp [charsetList] <;> decide

theorem get_charset_ok (cfg : Config) : get_charset cfg = .ok (charsetList cfg) := by
  simp only [get_charset]
  rw [if_neg (charsetList_ne_nil cfg)]

theorem raw_eq_prefOut (o : Option String) (t : String) :
    (match o with
     | some p => if p = "" then t else p ++ t
     | none => t) = prefOut o ++ t := by
  cases o with
  | none => rfl
  | some p =>
    by_cases hp : p = ""
    · subst hp
      rfl
    · simp [prefOut, hp]

theorem randPart_length (cs : List Char) (pick : Nat → Nat) (n : Nat) :
    (randPart cs pick n).length = n := by
  simp [randPart]

theorem randPart_mem (cs : List Char) (pick : Nat → Nat) (n : Nat)
    (h : cs ≠ []) : ∀ c ∈ randPart cs pick n, c ∈ cs := by
  intro c hc
  simp only [randPart, List.mem_map, List.mem_range] at hc
  obtain ⟨i, _, rfl⟩ := hc
  have hlen : 0 < cs.length := List.length_pos.mpr h
  have hmod : pick i % cs.length < cs.length := Nat.mod_lt _ hlen
  rw [List.getD_eq_getElem cs 'a' hmod]
  exact List.getElem_mem hmod

theorem genCore_err (cfg : Config) (pick : Nat → Nat) (now : PyDatetime)
    (ea : Option (PyDatetime ⊕ Int)) (pa : PermArg) (uid : Option String)
    (len : Option Int) (pre : Option String) (h : effLen cfg len < 8) :
    genCore cfg pick now ea pa uid len pre = .error .lengthError := by
  simp [genCore, h]

theorem genCore_ok (cfg : Config) (pick : Nat → Nat) (now : PyDatetime)
    (ea : Option (PyDatetime ⊕ Int)) (pa : PermArg) (uid : Option String)
    (len : Option Int) (pre : Option String) (h : ¬ effLen cfg len < 8) :
    genCore cfg pick now ea pa uid len pre =
      .ok (genRaw cfg pick (effLen cfg len).toNat pre,
        genMeta cfg pick now ea pa uid (effLen cfg len).toNat pre) := by
  simp only [genCore, get_charset_ok, h, if_false]
  rw [raw_eq_prefOut]
  simp [genRaw, genMeta]

theorem generate_ok (cfg : Config) (pick : Nat → Nat) (now : PyDatetime)
    (ea : Option (PyDatetime ⊕ Int)) (pa : PermArg) (uid : Option String)
    (len : Option Int) (pre : Option String) (store : Store)
    (h : ¬ effLen cfg len < 8) :
    generate_apikey cfg pick now ea pa uid len pre store =
      .ok ⟨genRaw cfg pick (effLen cfg len).toNat pre,
        storeInsert (cfg.hash (genRaw cfg pick (effLen cfg len).toNat pre))
          (genMeta cfg pick now ea pa uid (effLen cfg len).toNat pre) store,
        [storeInsert (cfg.hash (genRaw cfg pick (effLen cfg len).toNat pre))
          (genMeta cfg pick now ea pa uid (effLen cfg len).toNat pre) store]⟩ := by
  unfold generate_apikey
  rw [genCore_ok cfg pick now ea pa uid len pre h]

theorem genCore_ok_inv (cfg : Config) (pick : Nat → Nat) (now : PyDatetime)
    (ea : Option (PyDatetime ⊕ Int)) (pa : PermArg) (uid : Option String)
    (len : Option Int) (pre : Option String) (raw : String) (meta : Meta)
    (h : genCore cfg pick now ea pa uid len pre = .ok (raw, meta)) :
    raw = genRaw cfg pick (effLen cfg len).toNat pre ∧
    meta = genMeta cfg pick now ea pa uid (effLen cfg len).toNat pre := by
  by_cases hl : effLen cfg len < 8
  · rw [genCore_err cfg pick now ea pa uid len pre hl] at h
    simp at h
  · rw [genCore_ok cfg pick now ea pa uid len pre hl] at h
    simp only [Except.ok.injEq, Prod.mk.injEq] at h
    exact ⟨h.1.symm, h.2.symm⟩

/-! ## C2: length validation of generate -/

/-- Counterexample to C2 as stated: a length argument of 0 does not fail
with a length error — it is truthiness-defaulted to the configured default
length (8 in cfg0) and generation succeeds. -/
theorem generate_len0_counterexample :
    generate_apikey cfg0 pick0 now0 none (.perm 0) none (some 0) none [] =
      .ok ⟨"sk-aaaaaaaa", stGen0, [stGen0]⟩ := by
  rfl

/-- C2 (amended): every nonzero length argument below 8 fails with the
length error, while a length argument of 0 is truthiness-defaulted to the
configured default length instead (see C10); length 8 succeeds and the
returned secret is the effective prefix followed by exactly 8 charset
characters. -/
theorem generate_length_rule (cfg : Config) (pick : Nat → Nat)
    (now : PyDatetime) (ea : Option (PyDatetime ⊕ Int)) (pa : PermArg)
    (uid : Option String) (pre : Option String) (store : Store) :
    (∀ L : Int, L ≠ 0 → L < 8 →
      generate_apikey cfg pick now ea pa uid (some L) pre store =
        .error .lengthError) ∧
    (generate_apikey cfg pick now ea pa uid (some 8) pre store =
      .ok ⟨genRaw cfg pick 8 pre,
        storeInsert (cfg.hash (genRaw cfg pick 8 pre))
          (genMeta cfg pick now ea pa uid 8 pre) store,
        [storeInsert (cfg.hash (genRaw cfg pick 8 pre))
          (genMeta cfg pick now ea pa uid 8 pre) store]⟩ ∧
      genRaw cfg pick 8 pre =
        prefOut (effPref cfg pre) ++ String.mk (randPart (charsetList cfg) pick 8) ∧
      (randPart (charsetList cfg) pick 8).length = 8) := by
  constructor
  · intro L hL0 hL8
    have he : effLen cfg (some L) < 8 := by
      simp only [effLen, hL0, if_false]
      exact hL8
    unfold generate_apikey
    rw [genCore_err cfg pick now ea pa uid (some L) pre he]
  · have h8 : ¬ effLen cfg (some 8) < 8 := by
      simp [effLen]
    have ht : (effLen cfg (some 8)).toNat = 8 := by
      simp [effLen]
    have hg := generate_ok cfg pick now ea pa uid (some 8) pre store h8
    rw [ht] at hg
    exact ⟨hg, rfl, randPart_length _ _ _⟩

/-- Witness for C2 (amended): length 7 errors, length 8 succeeds with an
8-character random part after the default prefix. -/
theorem generate_length_rule_witness :
    generate_apikey cfg0 pick0 now0 none (.perm 0) none (some 7) none [] =
      .error .lengthError ∧
    generate_apikey cfg0 pick0 now0 none (.perm 0) none (some 8) none [] =
      .ok ⟨"sk-aaaaaaaa", stGen0, [stGen0]⟩ := by
  refine ⟨(generate_length_rule cfg0 pick0 now0 none (.perm 0) none none []).1 7
    (by decide) (by decide), ?_⟩
  have h := (generate_length_rule cfg0 pick0 now0 none (.perm 0) none none []).2.1
  rw [h]
  rfl

/-! ## C9: shape of the generated secret -/

theorem charsetList_eq_claimed (cfg : Config) :
    charsetList cfg = claimedCharset cfg := by
  rcases cfg with ⟨h, dl, dp, sc, sy⟩
  cases sc <;> cases sy <;> simp [charsetList, claimedCharset] <;> decide

/-- C9: a successful generate with length L and non-empty prefix p returns
p followed by exactly L characters, each drawn from the configured
charset; the charset is letters+digits, minus the ambiguous characters
l,L,O,o,0,1 when safe-chars is configured, plus the fixed symbol set when
symbols are configured. -/
theorem generate_secret_shape (cfg : Config) (pick : Nat → Nat)
    (now : PyDatetime) (ea : Option (PyDatetime ⊕ Int)) (pa : PermArg)
    (uid : Option String) (store : Store) (L : Nat) (p : String)
    (hL : 8 ≤ L) (hp : p ≠ "") :
    generate_apikey cfg pick now ea pa uid (some (L : Int)) (some p) store =
      .ok ⟨genRaw cfg pick L (some p),
        storeInsert (cfg.hash (genRaw cfg pick L (some p)))
          (genMeta cfg pick now ea pa uid L (some p)) store,
        [storeInsert (cfg.hash (genRaw cfg pick L (some p)))
          (genMeta cfg pick now ea pa uid L (some p)) store]⟩ ∧
    genRaw cfg pick L (some p) =
      p ++ String.mk (randPart (charsetList cfg) pick L) ∧
    (randPart (charsetList cfg) pick L).length = L ∧
    (∀ c ∈ randPart (charsetList cfg) pick L, c ∈ charsetList cfg) ∧
    charsetList cfg = claimedCharset cfg := by
  have hL0 : (L : Int) ≠ 0 := by omega
  have hL8 : ¬ effLen cfg (some (L : Int)) < 8 := by
    simp only [effLen, hL0, if_false]
    omega
  have ht : (effLen cfg (some (L : Int))).toNat = L := by
    simp [effLen, hL0]
  refine ⟨?_, ?_, randPart_length _ _ _,
    randPart_mem _ _ _ (charsetList_ne_nil cfg), charsetList_eq_claimed cfg⟩
  · have hg := generate_ok cfg pick now ea pa uid (some (L : Int)) (some p) store hL8
    rw [ht] at hg
    exact hg
  · unfold genRaw
    have hep : effPref cfg (some p) = some p := by simp [effPref, hp]
    rw [hep]
    simp [prefOut, hp]

/-- Witness for C9: length 8 and prefix "k-" on the sample config. -/
theorem generate_secret_shape_witness :
    generate_apikey cfg0 pick0 now0 none (.perm 0) none (some 8) (some "k-") [] =
      .ok ⟨genRaw cfg0 pick0 8 (some "k-"),
        storeInsert (cfg0.hash (genRaw cfg0 pick0 8 (some "k-")))
          (genMeta cfg0 pick0 now0 none (.perm 0) none 8 (some "k-")) [],
        [storeInsert (cfg0.hash (genRaw cfg0 pick0 8 (some "k-")))
          (genMeta cfg0 pick0 now0 none (.perm 0) none 8 (some "k-")) []]⟩ ∧
    genRaw cfg0 pick0 8 (some "k-") = "k-aaaaaaaa" := by
  have h := generate_secret_shape cfg0 pick0 now0 none (.perm 0) none [] 8 "k-"
    (by decide) (by decide)
  exact ⟨h.1, by decide⟩

/-! ## C10: truthiness defaulting of length and prefix -/

/-- C10: a length argument of 0 and a prefix argument of the empty string
are each treated as absent — the configured defaults are substituted via
truthiness defaulting; in particular, when the configured default length
is at least 8, generate(length=0, prefix="") succeeds and returns a secret
carrying the configured default prefix followed by a random part of the
default length. -/
theorem generate_truthiness_defaults (cfg : Config) (pick : Nat → Nat)
    (now : PyDatetime) (ea : Option (PyDatetime ⊕ Int)) (pa : PermArg)
    (uid : Option String) (store : Store) :
    (∀ pre, generate_apikey cfg pick now ea pa uid (some 0) pre store =
      generate_apikey cfg pick now ea pa uid none pre store) ∧
    (∀ len, generate_apikey cfg pick now ea pa uid len (some "") store =
      generate_apikey cfg pick now ea pa uid len none store) ∧
    effPref cfg (some "") = cfg.default_pref ∧
    (8 ≤ cfg.default_length →
      generate_apikey cfg pick now ea pa uid (some 0) (some "") store =
        .ok ⟨genRaw cfg pick cfg.default_length.toNat (some ""),
          storeInsert (cfg.hash (genRaw cfg pick cfg.default_length.toNat (some "")))
            (genMeta cfg pick now ea pa uid cfg.default_length.toNat (some "")) store,
          [storeInsert (cfg.hash (genRaw cfg pick cfg.default_length.toNat (some "")))
            (genMeta cfg pick now ea pa uid cfg.default_length.toNat (some "")) store]⟩ ∧
      genRaw cfg pick cfg.default_length.toNat (some "") =
        prefOut cfg.default_pref ++
          String.mk (randPart (charsetList cfg) pick cfg.default_length.toNat) ∧
      (randPart (charsetList cfg) pick cfg.default_length.toNat).length =
        cfg.default_length.toNat) := by
  refine ⟨fun pre => rfl, fun len => rfl, rfl, fun hd => ?_⟩
  have hlen : effLen cfg (some 0) = cfg.default_length := by
    simp [effLen]
  have h8 : ¬ effLen cfg (some 0) < 8 := by
    rw [hlen]
    omega
  have hg := generate_ok cfg pick now ea pa uid (some 0) (some "") store h8
  rw [hlen] at hg
  refine ⟨hg, ?_, randPart_length _ _ _⟩
  unfold genRaw
  rfl

/-- Witness for C10: generate(length=0, prefix="") under cfg0 succeeds and
carries the default prefix "sk-". -/
theorem generate_truthiness_defaults_witness :
    generate_apikey cfg0 pick0 now0 none (.perm 0) none (some 0) (some "") [] =
      .ok ⟨"sk-aaaaaaaa", stGen0, [stGen0]⟩ := by
  have h := ((generate_truthiness_defaults cfg0 pick0 now0 none (.perm 0) none
    []).2.2.2 (by decide)).1
  rw [h]
  rfl

/-! ## C6: permissions of a freshly generated key -/

/-- C6: a secret generated with permissions P and not expired at
validation time validates with isValid=true, and hasPermission is true
exactly when the required set R is covered by P ((P AND R) = R). -/
theorem generate_validate_permission (cfg : Config) (pick : Nat → Nat)
    (now now' : PyDatetime) (ea : Option (PyDatetime ⊕ Int))
    (uid : Option String) (len : Option Int) (pre : Option String)
    (store : Store) (P R : Nat) (r : GenResult)
    (hgen : generate_apikey cfg pick now ea (.perm P) uid len pre store = .ok r)
    (hexp : ∀ t, expiryOf now ea = some t → ¬ t.stamp < now'.stamp) :
    (validate_apikey cfg now' r.secret (some R) r.store).is_valid = true ∧
    (validate_apikey cfg now' r.secret (some R) r.store).is_expired = false ∧
    (validate_apikey cfg now' r.secret (some R) r.store).has_permission =
      decide (P &&& R = R) := by
  unfold generate_apikey at hgen
  rcases hc : genCore cfg pick now ea (.perm P) uid len pre with e | ⟨raw, meta⟩
  · rw [hc] at hgen
    simp at hgen
  · rw [hc] at hgen
    simp only [Except.ok.injEq] at hgen
    obtain ⟨-, hmeta⟩ := genCore_ok_inv cfg pick now ea (.perm P) uid len pre
      raw meta hc
    subst hgen
    have hlk : storeLookup (cfg.hash raw)
        (storeInsert (cfg.hash raw) meta store) = some meta :=
      storeLookup_insert_self _ _ _
    have hact : meta.is_active = true := by rw [hmeta]; rfl
    have hperm : meta.permissions = P := by rw [hmeta]; rfl
    have hexpat : meta.expire_at = expiryOf now ea := by rw [hmeta]; rfl
    have hee : isExpiredAt now' meta.expire_at = false := by
      rw [hexpat]
      cases he : expiryOf now ea with
      | none => rfl
      | some t => simp [isExpiredAt, hexp t he]
    unfold validate_apikey
    rw [hlk]
    simp only [hact, hee]
    by_cases hR : R = 0
    · subst hR
      simp [okResult, hperm]
    · by_cases hPR : P &&& R = R
      · simp [hR, hperm, hPR, okResult]
      · simp [hR, hperm, hPR, okResult]

/-- Witness for C6: a key generated with READ_WRITE validates against
required READ with full permission. -/
theorem generate_validate_permission_witness :
    (validate_apikey cfg0 now1 rC6.secret (some 1) rC6.store).is_valid = true ∧
    (validate_apikey cfg0 now1 rC6.secret (some 1) rC6.store).has_permission =
      decide (3 &&& 1 = 1) := by
  have h := generate_validate_permission cfg0 pick0 now0 now1 none none none
    none [] 3 1 rC6 (by rfl) (by intro t ht; exact Option.noConfusion ht)
  exact ⟨h.1, h.2.2⟩

/-! ## C7: delete of an unknown secret is a no-op -/

/-- C7: deleting a secret whose hash is not in the store returns false and
leaves the in-memory store unchanged, performing no file save at all
(the write list is empty, so the persisted file is untouched). -/
theorem delete_missing_noop (cfg : Config) (secret : String) (store : Store)
    (h : storeLookup (cfg.hash secret) store = none) :
    delete_apikey cfg secret store = (false, store, []) := by
  simp only [delete_apikey]
  rw [h]

/-- Witness for C7: deleting an absent secret from the sample store. -/
theorem delete_missing_noop_witness :
    delete_apikey cfg0 "nope" store0 = (false, store0, []) :=
  delete_missing_noop cfg0 "nope" store0 (by decide)

/-! ## C5: monotonicity of the active flag -/

theorem stepOp_preserves_inactive (cfg : Config) (op : MOp) (k : String)
    (st : Store) (hop : genKeyOf cfg op ≠ some k)
    (h : (storeLookup k st).all (fun m => !m.is_active) = true) :
    (storeLookup k (stepOp cfg op st)).all (fun m => !m.is_active) = true := by
  cases op with
  | mgen pick now ea pa uid len pre =>
    rcases hc : genCore cfg pick now ea pa uid len pre with e | ⟨raw, meta⟩
    · have hg : generate_apikey cfg pick now ea pa uid len pre st = .error e := by
        unfold generate_apikey
        rw [hc]
      simp only [stepOp]
      rw [hg]
      exact h
    · have hg : generate_apikey cfg pick now ea pa uid len pre st =
          .ok ⟨raw, storeInsert (cfg.hash raw) meta st,
            [storeInsert (cfg.hash raw) meta st]⟩ := by
        unfold generate_apikey
        rw [hc]
      have hko : genKeyOf cfg (.mgen pick now ea pa uid len pre) =
          some (cfg.hash raw) := by
        simp only [genKeyOf]
        rw [hc]
      have hkraw : cfg.hash raw ≠ k := by
        intro he
        apply hop
        rw [hko, he]
      simp only [stepOp]
      rw [hg]
      show (storeLookup k (storeInsert (cfg.hash raw) meta st)).all
        (fun m => !m.is_active) = true
      rw [storeLookup_insert_ne k (cfg.hash raw) meta st hkraw]
      exact h
  | mdisable s =>
    simp only [stepOp]
    rcases hl : storeLookup (cfg.hash s) st with _ | m
    · have hd : disable_apikey cfg s st = (false, st, []) := by
        simp only [disable_apikey]
        rw [hl]
      rw [hd]
      exact h
    · have hd : disable_apikey cfg s st =
          (true, storeInsert (cfg.hash s) { m with is_active := false } st,
            [storeInsert (cfg.hash s) { m with is_active := false } st]) := by
        simp only [disable_apikey]
        rw [hl]
      rw [hd]
      by_cases hk : cfg.hash s = k
      · subst hk
        show (storeLookup (cfg.hash s) (storeInsert (cfg.hash s)
          { m with is_active := false } st)).all (fun m => !m.is_active) = true
        rw [storeLookup_insert_self]
        rfl
      · show (storeLookup k (storeInsert (cfg.hash s)
          { m with is_active := false } st)).all (fun m => !m.is_active) = true
        rw [storeLookup_insert_ne k (cfg.hash s) _ st hk]
        exact h
  | mdelete s =>
    simp only [stepOp]
    rcases hl : storeLookup (cfg.hash s) st with _ | m
    · have hd : delete_apikey cfg s st = (false, st, []) := by
        simp only [delete_apikey]
        rw [hl]
      rw [hd]
      exact h
    · have hd : delete_apikey cfg s st =
          (true, storeRemove (cfg.hash s) st, [storeRemove (cfg.hash s) st]) := by
        simp only [delete_apikey]
        rw [hl]
      rw [hd]
      by_cases hk : k = cfg.hash s
      · subst hk
        show (storeLookup (cfg.hash s) (storeRemove (cfg.hash s) st)).all
          (fun m => !m.is_active) = true
        rw [storeLookup_remove_self]
        rfl
      · show (storeLookup k (storeRemove (cfg.hash s) st)).all
          (fun m => !m.is_active) = true
        rw [storeLookup_remove_ne k (cfg.hash s) st hk]
        exact h
  | mvalidate now s req => exact h

/-- Counterexample to C5 as stated: generating a secret, disabling it, and
then generating again with a random draw that reproduces the same secret
overwrites the disabled record with a fresh active one, so the record's
active flag at that key goes back from false to true. -/
theorem active_reset_counterexample :
    (storeLookup "sk-aaaaaaaa"
      (runOps cfg0 [gop0, .mdisable "sk-aaaaaaaa"] [])).map Meta.is_active =
        some false ∧
    (storeLookup "sk-aaaaaaaa"
      (runOps cfg0 [gop0, .mdisable "sk-aaaaaaaa", gop0] [])).map Meta.is_active =
        some true := by
  constructor
  · rfl
  · rfl

/-- C5 (amended): across any sequence of generate/validate/disable/delete
operations, a record's active flag is monotone non-increasing — once
false, the key either keeps an inactive record or disappears — provided no
generate in the sequence re-issues a secret hashing to that record's key
(such a generate overwrites the record with a fresh active one, which is
the exception exhibited by the counterexample). -/
theorem active_monotone_amended (cfg : Config) (ops : List MOp) (k : String)
    (store : Store) (hops : ∀ op ∈ ops, genKeyOf cfg op ≠ some k)
    (h : (storeLookup k store).all (fun m => !m.is_active) = true) :
    (storeLookup k (runOps cfg ops store)).all (fun m => !m.is_active) = true := by
  revert hops h
  induction ops generalizing store with
  | nil => exact fun _ h => h
  | cons op ops ih =>
    intro hops h
    have h1 := stepOp_preserves_inactive cfg op k store
      (hops op (List.mem_cons_self op ops)) h
    have hrun : runOps cfg (op :: ops) store = runOps cfg ops (stepOp cfg op store) :=
      rfl
    rw [hrun]
    exact ih (stepOp cfg op store) (fun o ho => hops o (List.mem_cons_of_mem op ho)) h1

/-- Witness for C5 (amended): a disabled record stays inactive across a
disable, a delete of another key and a validate. -/
theorem active_monotone_amended_witness :
    (storeLookup "sk-aaaaaaaa"
      (runOps cfg0 [.mdisable "sk-aaaaaaaa", .mdelete "zz",
        .mvalidate now1 "sk-aaaaaaaa" (some 1)] storeInact)).all
      (fun m => !m.is_active) = true :=
  active_monotone_amended cfg0
    [.mdisable "sk-aaaaaaaa", .mdelete "zz", .mvalidate now1 "sk-aaaaaaaa" (some 1)]
    "sk-aaaaaaaa" storeInact (by decide) (by decide)

/-! ## C3: error handling of load -/

/-- Counterexample to C3 as stated: a store file that is valid JSON but
whose record fails to deserialize (its `expire_at` holds a string that is
not an ISO timestamp, so `fromisoformat` raises) is not discarded into an
empty store — the load fails fatally with a RuntimeError. -/
theorem load_bad_record_counterexample :
    load_from_file (.parsed badTimeDoc) = .error .runtimeError := rfl

/-- C3 (amended): only a JSON decode error (and an absent file) is
recovered by returning an empty store; a permission failure reading the
file propagates as a PermissionError; a non-object top level, a record
value that is not an object, and any present record field that
`_deserialize_value` fails on (a non-ISO value in a timestamp field, a
permissions value outside the valid bitmask range) are re-raised fatally
as a RuntimeError rather than discarded.  Records are not schema-checked:
a record whose present fields all deserialize loads successfully with
exactly those fields — in particular, an empty record loads as an empty
record. -/
theorem load_error_behavior :
    load_from_file .absentFile = .ok [] ∧
    load_from_file .malformed = .ok [] ∧
    load_from_file .permissionError = .error .permError ∧
    load_from_file (.parsed .nonObj) = .error .runtimeError ∧
    (∀ k, load_from_file (.parsed (.obj [(k, .nonObjRec)])) =
      .error .runtimeError) ∧
    (∀ k fs, deserializeFields fs = .error () →
      load_from_file (.parsed (.obj [(k, .fields fs)])) = .error .runtimeError) ∧
    (∀ k fs dv, deserializeFields fs = .ok dv →
      load_from_file (.parsed (.obj [(k, .fields fs)])) = .ok [(k, dv)]) ∧
    (∀ s, deserialize_value "expire_at" (.jstr s) = .error ()) ∧
    (∀ n : Int, 8 ≤ n ∨ n < 0 → deserialize_value "permissions" (.jint n) =
      .error ()) ∧
    load_from_file (.parsed (.obj [("h", .fields [])])) = .ok [("h", [])] := by
  refine ⟨rfl, rfl, rfl, rfl, fun k => rfl, ?_, ?_, fun s => rfl, ?_, rfl⟩
  · intro k fs h
    have hrec : load_records [(k, .fields fs)] = .error () := by
      simp only [load_records]
      rw [h]
      rfl
    simp only [load_from_file]
    rw [hrec]
  · intro k fs dv h
    have hrec : load_records [(k, .fields fs)] = .ok [(k, dv)] := by
      simp only [load_records]
      rw [h]
      rfl
    simp only [load_from_file]
    rw [hrec]
  · intro n hn
    have hno : ¬ (0 ≤ n ∧ n < 8) := by
      rcases hn with h | h <;> omega
    show (match deserialize_perm (.jint n) with
      | .ok p => Except.ok (LVal.vperm p)
      | .error e => Except.error e) = .error ()
    simp only [deserialize_perm]
    rw [if_neg hno]

/-- Witness for C3 (amended): a record whose `expire_at` is a non-ISO
string fails fatally, as does a permissions value of 9. -/
theorem load_error_behavior_witness :
    load_from_file (.parsed (.obj [("h",
      .fields [("expire_at", .jstr "not-a-timestamp")])])) =
      .error .runtimeError ∧
    deserialize_value "permissions" (.jint 9) = .error () :=
  ⟨load_error_behavior.2.2.2.2.2.1 "h" [("expire_at", .jstr "not-a-timestamp")]
    rfl,
   load_error_behavior.2.2.2.2.2.2.2.2.1 9 (Or.inl (by decide))⟩

/-! ## C4: save-then-load round trip -/

theorem option_all_true {α : Type} (f : α → Bool) (o : Option α)
    (h : o.all f = true) : ∀ x, o = some x → f x = true := by
  intro x hx
  subst hx
  exact h

theorem deserializeMeta_serializeMeta (m : Meta) (h1 : m.permissions < 8)
    (h2 : m.expire_at.all (fun d => d.utc) = true)
    (h3 : m.created_at.all (fun d => d.utc) = true) :
    deserializeMeta (serializeMeta m) = .ok m := by
  rcases m with ⟨raw, ea, p, ca, uid, act⟩
  have hp : deserialize_perm (.jint (p : Int)) = .ok p := by
    simp only [deserialize_perm]
    rw [if_pos ⟨Int.natCast_nonneg p, by exact_mod_cast h1⟩]
    simp
  rcases ea with _ | ⟨ds, du⟩ <;> rcases ca with _ | ⟨cs, cu⟩ <;>
    rcases uid with _ | u
  all_goals try (have hdu : du = true := option_all_true _ _ h2 _ rfl; subst hdu)
  all_goals try (have hcu : cu = true := option_all_true _ _ h3 _ rfl; subst hcu)
  all_goals simp only [serializeMeta, deserializeMeta]
  all_goals rw [hp]
  all_goals rfl

theorem loadRecords_save (st : Store) (h : storeWF st = true) :
    loadRecords (st.map (fun p => (p.1, .fields (serializeMeta p.2)))) =
      .ok st := by
  induction st with
  | nil => rfl
  | cons p rest ih =>
    rcases p with ⟨k, m⟩
    have hall := h
    simp only [storeWF, List.all_cons, Bool.and_eq_true, decide_eq_true_eq] at hall
    obtain ⟨⟨⟨hm1, hm2⟩, hm3⟩, hrest⟩ := hall
    simp only [List.map_cons, loadRecords]
    rw [deserializeMeta_serializeMeta m hm1 hm2 hm3]
    rw [show loadRecords (rest.map (fun p => (p.1, .fields (serializeMeta p.2)))) =
      .ok rest from ih hrest]
    rfl

/-- C4: serializing every record of a well-formed in-memory store to the
file and deserializing the result back (save then load) yields exactly the
records saved: raw secret, expiry and creation timestamps (UTC-aware, to
full microsecond precision), permission bitmask, user id and active flag
all equal, for every record present before the save. -/
theorem save_load_roundtrip (st : Store) (h : storeWF st = true) :
    loadStore (.parsed (saveDoc st)) = .ok st := by
  have hrec := loadRecords_save st h
  simp only [loadStore, saveDoc]
  rw [hrec]

/-- Witness for C4: round trip of a concrete one-record store. -/
theorem save_load_roundtrip_witness :
    loadStore (.parsed (saveDoc storeRT)) = .ok storeRT :=
  save_load_roundtrip storeRT (by decide)

/-! ## Agreement of the faithful loader with the typed view on saved
documents -/

theorem deserialize_perm_natCast (p : Nat) (h : p < 8) :
    deserialize_perm (.jint (p : Int)) = .ok p := by
  simp only [deserialize_perm]
  rw [if_pos ⟨Int.natCast_nonneg p, by exact_mod_cast h⟩]
  simp

theorem deserializeFields_cons_ok (k : String) (v : JPrim) (dv : LVal)
    (rest : List (String × JPrim)) (h : deserialize_value k v = .ok dv) :
    deserializeFields ((k, v) :: rest) =
      Except.map (fun tl => (k, dv) :: tl) (deserializeFields rest) := by
  simp only [deserializeFields]
  rw [h]
  cases hrest : deserializeFields rest <;> rfl

theorem deserialize_value_raw (s : String) :
    deserialize_value "raw_apikey" (.jstr s) = .ok (.vstr s) := rfl

theorem deserialize_value_expire_time (t : IsoTime) :
    deserialize_value "expire_at" (.jtime t) = .ok (.vdt ⟨t.stamp, true⟩) := rfl

theorem deserialize_value_expire_null :
    deserialize_value "expire_at" .jnull = .ok .vnull := rfl

theorem deserialize_value_created_time (t : IsoTime) :
    deserialize_value "created_at" (.jtime t) = .ok (.vdt ⟨t.stamp, true⟩) := rfl

theorem deserialize_value_created_null :
    deserialize_value "created_at" .jnull = .ok .vnull := rfl

theorem deserialize_value_user (s : String) :
    deserialize_value "user_id" (.jstr s) = .ok (.vstr s) := rfl

theorem deserialize_value_user_null :
    deserialize_value "user_id" .jnull = .ok .vnull := rfl

theorem deserialize_value_active (b : Bool) :
    deserialize_value "is_active" (.jbool b) = .ok (.vbool b) := rfl

theorem deserializeFields_serializeMeta (m : Meta) (h1 : m.permissions < 8)
    (h2 : m.expire_at.all (fun d => d.utc) = true)
    (h3 : m.created_at.all (fun d => d.utc) = true) :
    deserializeFields (serializeMeta m) = .ok (rawFieldsOfMeta m) := by
  rcases m with ⟨raw, ea, p, ca, uid, act⟩
  have hpv : deserialize_value "permissions" (.jint (p : Int)) =
      .ok (.vperm p) := by
    show (match deserialize_perm (.jint (p : Int)) with
      | .ok q => Except.ok (LVal.vperm q)
      | .error e => Except.error e) = .ok (.vperm p)
    rw [deserialize_perm_natCast p h1]
  rcases ea with _ | ⟨ds, du⟩ <;> rcases ca with _ | ⟨cs, cu⟩ <;>
    rcases uid with _ | u
  all_goals try (have hdu : du = true := option_all_true _ _ h2 _ rfl; subst hdu)
  all_goals try (have hcu : cu = true := option_all_true _ _ h3 _ rfl; subst hcu)
  all_goals simp only [serializeMeta, serialize_dt]
  all_goals rw [deserializeFields_cons_ok _ _ _ _ (deserialize_value_raw raw)]
  all_goals first
    | rw [deserializeFields_cons_ok _ _ _ _ deserialize_value_expire_null]
    | rw [deserializeFields_cons_ok _ _ _ _ (deserialize_value_expire_time _)]
  all_goals rw [deserializeFields_cons_ok _ _ _ _ hpv]
  all_goals first
    | rw [deserializeFields_cons_ok _ _ _ _ deserialize_value_created_null]
    | rw [deserializeFields_cons_ok _ _ _ _ (deserialize_value_created_time _)]
  all_goals first
    | rw [deserializeFields_cons_ok _ _ _ _ deserialize_value_user_null]
    | rw [deserializeFields_cons_ok _ _ _ _ (deserialize_value_user _)]
  all_goals rw [deserializeFields_cons_ok _ _ _ _ (deserialize_value_active act)]
  all_goals rfl

theorem load_records_save (st : Store) (h : storeWF st = true) :
    load_records (st.map (fun p => (p.1, .fields (serializeMeta p.2)))) =
      .ok (rawOfStore st) := by
  induction st with
  | nil => rfl
  | cons p rest ih =>
    rcases p with ⟨k, m⟩
    have hall := h
    simp only [storeWF, List.all_cons, Bool.and_eq_true, decide_eq_true_eq] at hall
    obtain ⟨⟨⟨hm1, hm2⟩, hm3⟩, hrest⟩ := hall
    simp only [List.map_cons, load_records]
    rw [deserializeFields_serializeMeta m hm1 hm2 hm3]
    rw [show load_records (rest.map (fun p => (p.1, .fields (serializeMeta p.2)))) =
      .ok (rawOfStore rest) from ih hrest]
    rfl

/-- Agreement of the two readings of the load path: on every document
`_save_to_file` writes for a well-formed store, the faithful loader
`load_from_file` succeeds and yields exactly the raw view of the typed
store that `loadStore` returns (cf. `save_load_roundtrip`). -/
theorem save_load_faithful (st : Store) (h : storeWF st = true) :
    load_from_file (.parsed (saveDoc st)) = .ok (rawOfStore st) := by
  have hrec := load_records_save st h
  simp only [load_from_file, saveDoc]
  rw [hrec]

end APIKeySpec
